import Mathlib

/-!
Shallow embedding of the REINFORCE inverted-pendulum training code
(`Policy_Network` and the `REINFORCE` agent) and proofs about it.

The agent's scalar arithmetic is embedded parametrically over a `Field α`
(instantiated at `ℚ` for exact evaluation, and at `ℝ` for the network's
transcendental activations).  Stateful Python methods become explicit
state-passing functions; fallible operations return `Except`.
-/

/-- One `nn.Linear` layer: a weight matrix (list of rows, row length = the
input dimensionality) and a bias vector (length = the output
dimensionality). -/
structure LinearLayer (α : Type) where
  weight : List (List α)
  bias : List α
deriving DecidableEq

/-- The `Policy_Network` module: the two linear layers of `shared_net`
(each followed by `nn.Tanh` in the forward pass), plus the
`policy_mean_net` and `policy_stddev_net` heads. -/
structure Policy_Network (α : Type) where
  shared_net1 : LinearLayer α
  shared_net2 : LinearLayer α
  policy_mean_net : LinearLayer α
  policy_stddev_net : LinearLayer α
deriving DecidableEq

/-- The mutable state of a `REINFORCE` agent instance: its network and the
two per-episode trajectory buffers.  `probs` stores, per step, the vector
of per-dimension log-densities appended by `sample_action` (a tensor of
size `action_space_dims` in the source); `rewards` stores the scalar
rewards appended by the driver. -/
structure REINFORCE (α : Type) where
  net : Policy_Network α
  probs : List (List α)
  rewards : List α
deriving DecidableEq

/-- Hyperparameter `self.gamma = 0.99`. -/
def REINFORCE.gamma {α : Type} [Field α] : α := 99 / 100

/-- Hyperparameter `self.eps = 1e-6`. -/
def REINFORCE.eps {α : Type} [Field α] : α := 1 / 1000000

/-- Hyperparameter `self.learning_rate = 1e-4`. -/
def REINFORCE.learning_rate {α : Type} [Field α] : α := 1 / 10000

/-- One iteration of the return loop in `update`:
`running_g = R + self.gamma * running_g; gs.insert(0, running_g)`.
The accumulator pairs `running_g` with the list `gs` built so far. -/
def drStep {α : Type} [Field α] (γ : α) (acc : α × List α) (R : α) : α × List α :=
  (R + γ * acc.1, (R + γ * acc.1) :: acc.2)

/-- The first loop of `REINFORCE.update`: iterate over `self.rewards[::-1]`
(the reversed reward list), maintaining `running_g` (initially `0`) and
prepending each new `running_g` to `gs`. -/
def discountedReturns {α : Type} [Field α] (γ : α) (rewards : List α) : List α :=
  (rewards.reverse.foldl (drStep γ) (0, [])).2

/-- The Python dynamic type of the `loss` variable in `update`: it starts
as the integer literal `0` and becomes a tensor as soon as the loop body
adds a tensor term to it. -/
inductive LossVal (α : Type) where
  | intZero : LossVal α
  | tensor : α → LossVal α
deriving DecidableEq

/-- `loss += t` where `t` is a (0-dimensional) tensor: an int `0` plus a
tensor is a tensor; a tensor plus a tensor adds the values. -/
def LossVal.add {α : Type} [Add α] : LossVal α → α → LossVal α
  | .intZero, t => .tensor t
  | .tensor v, t => .tensor (v + t)

/-- `tensor.mean()`: the arithmetic mean of the entries. -/
def listMean {α : Type} [Field α] (p : List α) : α := p.sum / (p.length : α)

/-- The errors an `update` call can signal.  `attributeError` models the
Python `AttributeError` raised by `loss.backward()` when `loss` is still
the plain integer `0`.  `emptyTrajectoryError` is the error class named by
the specification's error taxonomy; the source never defines or raises it,
but the constructor is needed to state the specification's claim. -/
inductive UpdateErr where
  | emptyTrajectoryError : UpdateErr
  | attributeError : UpdateErr
deriving DecidableEq

/-- `REINFORCE.update`.  The gradient propagation and AdamW step
(`loss.backward(); self.optimizer.step()`) are abstracted as an opaque
function `optStep` from the current network and the scalar loss value to
the updated network; the embedding records that this step runs exactly
once, with the computed loss, whenever `loss` is a tensor.  On success the
returned pair carries the post-update state (buffers cleared, network
replaced by `optStep`'s result) together with the loss value that was
backpropagated. -/
def REINFORCE.update {α : Type} [Field α]
    (optStep : Policy_Network α → α → Policy_Network α) (s : REINFORCE α) :
    Except UpdateErr (REINFORCE α × α) :=
  let gs := discountedReturns REINFORCE.gamma s.rewards
  let loss := (s.probs.zip gs).foldl
    (fun acc pg => acc.add (listMean pg.1 * pg.2 * (-1))) LossVal.intZero
  match loss with
  | .intZero => .error .attributeError
  | .tensor v =>
      .ok ({ net := optStep s.net v, probs := [], rewards := [] }, v)

/-- The scalar loss value `update` accumulates:
`sum over zip(self.probs, deltas) of log_prob.mean() * delta * (-1)`. -/
def episodeLoss {α : Type} [Field α] (s : REINFORCE α) : α :=
  ((s.probs.zip (discountedReturns REINFORCE.gamma s.rewards)).map
    (fun pg => listMean pg.1 * pg.2 * (-1))).sum

/-- A trivial concrete network over `ℚ`, used to evaluate the agent's
update logic (which never reads the weights) on concrete inputs. -/
def trivNetQ : Policy_Network ℚ :=
  { shared_net1 := { weight := [], bias := [] }
    shared_net2 := { weight := [], bias := [] }
    policy_mean_net := { weight := [], bias := [] }
    policy_stddev_net := { weight := [], bias := [] } }

/-- A concrete optimizer-step stand-in over `ℚ` that keeps the network. -/
def optStepQ : Policy_Network ℚ → ℚ → Policy_Network ℚ := fun n _ => n

/-- An agent state with both trajectory buffers empty. -/
def emptyAgentQ : REINFORCE ℚ := { net := trivNetQ, probs := [], rewards := [] }

/-- Spec-side closed form of the discounted return-to-go, used only to
relate the code's reverse scan to the specification's formula. -/
def dsum {α : Type} [Field α] (γ : α) : List α → α
  | [] => 0
  | r :: rs => r + γ * dsum γ rs

/-- The error the approximator's forward pass can raise: the runtime shape
error produced by a linear layer when the input vector's length does not
match the layer's input dimensionality (the specification's
`InvalidObservationShape`). -/
inductive ForwardErr where
  | invalidObservationShape : ForwardErr
deriving DecidableEq

/-- Dot product of two real vectors (truncating to the shorter). -/
noncomputable def dot (xs ys : List ℝ) : ℝ :=
  (List.zipWith (fun a b => a * b) xs ys).sum

/-- Applying an `nn.Linear` layer to a vector: validates that the input
length matches every weight row's length (the matrix-multiplication shape
check), then returns `W·x + b`. -/
noncomputable def LinearLayer.run (l : LinearLayer ℝ) (x : List ℝ) :
    Except ForwardErr (List ℝ) :=
  if ∀ r ∈ l.weight, r.length = x.length then
    .ok (List.zipWith (fun row b => dot row x + b) l.weight l.bias)
  else .error .invalidObservationShape

/-- The softplus positivity transform applied to the raw scale head output:
`torch.log(1 + torch.exp(x))`. -/
noncomputable def softplus (x : ℝ) : ℝ := Real.log (1 + Real.exp x)

/-- `Policy_Network.forward`: the shared trunk (two linear layers, each
followed by `tanh`), then the mean head, and the stddev head mapped
through `softplus`. -/
noncomputable def Policy_Network.forward (net : Policy_Network ℝ) (x : List ℝ) :
    Except ForwardErr (List ℝ × List ℝ) := do
  let h1 ← net.shared_net1.run x
  let h2 ← net.shared_net2.run (h1.map Real.tanh)
  let shared_features := h2.map Real.tanh
  let action_means ← net.policy_mean_net.run shared_features
  let raw_stddevs ← net.policy_stddev_net.run shared_features
  return (action_means, raw_stddevs.map softplus)

/-- Per-dimension log-density of a Normal distribution with the given
location and scale, evaluated at `a` (what `distrib.log_prob(action)`
computes for each coordinate). -/
noncomputable def normalLogPdf (loc scale a : ℝ) : ℝ :=
  -((a - loc) ^ 2 / (2 * scale ^ 2)) - Real.log scale -
    Real.log (Real.sqrt (2 * Real.pi))

/-- `REINFORCE.sample_action`.  The single standard-normal draw that
`distrib.sample()` consumes is passed in explicitly as the vector `z`
(one coordinate per action dimension), making the sampling a deterministic
function of the random draw.  The sampled action is
`loc + scale * z` coordinatewise with `loc = action_means[0] + self.eps`
and `scale = action_stddevs[0] + self.eps`; its per-dimension log-density
vector is appended to `self.probs` and the action is returned. -/
noncomputable def REINFORCE.sample_action (s : REINFORCE ℝ) (state z : List ℝ) :
    Except ForwardErr (List ℝ × REINFORCE ℝ) := do
  let ms ← Policy_Network.forward s.net state
  let loc := ms.1.map (fun m => m + REINFORCE.eps)
  let scale := ms.2.map (fun v => v + REINFORCE.eps)
  let action := List.zipWith (fun p zi => p.1 + p.2 * zi) (loc.zip scale) z
  let prob := List.zipWith (fun p a => normalLogPdf p.1 p.2 a) (loc.zip scale) action
  return (action, { s with probs := s.probs ++ [prob] })

/-- Well-formedness of a linear layer for input dimensionality `din` and
output dimensionality `dout` (the shapes `nn.Linear(din, dout)` creates). -/
structure LinearLayer.WF (l : LinearLayer ℝ) (din dout : ℕ) : Prop where
  weight_len : l.weight.length = dout
  row_len : ∀ r ∈ l.weight, r.length = din
  bias_len : l.bias.length = dout

/-- Well-formedness of a policy network for observation dimensionality
`dObs` and action dimensionality `dAct`: the shapes `Policy_Network`'s
constructor creates, with hidden widths 16 and 32. -/
structure Policy_Network.WF (net : Policy_Network ℝ) (dObs dAct : ℕ) : Prop where
  wf1 : net.shared_net1.WF dObs 16
  wf2 : net.shared_net2.WF 16 32
  wf_mean : net.policy_mean_net.WF 32 dAct
  wf_stddev : net.policy_stddev_net.WF 32 dAct

/-- A concrete all-zero policy network over `ℝ` with observation and
action dimensionality 2, used as a witness input. -/
noncomputable def testNetR : Policy_Network ℝ :=
  { shared_net1 := { weight := List.replicate 16 (List.replicate 2 0)
                     bias := List.replicate 16 0 }
    shared_net2 := { weight := List.replicate 32 (List.replicate 16 0)
                     bias := List.replicate 32 0 }
    policy_mean_net := { weight := List.replicate 2 (List.replicate 32 0)
                         bias := List.replicate 2 0 }
    policy_stddev_net := { weight := List.replicate 2 (List.replicate 32 0)
                           bias := List.replicate 2 0 } }

/-- A concrete agent state over `ℝ` built on `testNetR`, with empty
trajectory buffers. -/
noncomputable def testAgentR : REINFORCE ℝ :=
  { net := testNetR, probs := [], rewards := [] }

theorem discountedReturns_nil {α : Type} [Field α] (γ : α) :
    discountedReturns γ ([] : List α) = [] := rfl

theorem drStep_fold_inv {α : Type} [Field α] (γ : α) :
    ∀ (l : List α) (acc : α × List α), acc.1 = acc.2.headD 0 →
      (l.foldl (drStep γ) acc).1 = (l.foldl (drStep γ) acc).2.headD 0 := by
  intro l
  induction l with
  | nil => intro acc h; exact h
  | cons a t ih =>
      intro acc _
      simpa [List.foldl_cons] using ih (drStep γ acc a) (by simp [drStep])

theorem discountedReturns_cons {α : Type} [Field α] (γ : α) (r : α) (rs : List α) :
    discountedReturns γ (r :: rs) =
      (r + γ * (discountedReturns γ rs).headD 0) :: discountedReturns γ rs := by
  have hinv := drStep_fold_inv γ rs.reverse ((0 : α), ([] : List α)) (by simp)
  simp only [discountedReturns, List.reverse_cons, List.foldl_append, List.foldl_cons,
    List.foldl_nil]
  simp only [drStep]
  rw [hinv]

theorem discountedReturns_headD {α : Type} [Field α] (γ : α) (rs : List α) :
    (discountedReturns γ rs).headD 0 = dsum γ rs := by
  induction rs with
  | nil => simp [discountedReturns_nil, dsum]
  | cons r t ih =>
      rw [discountedReturns_cons, List.headD_cons, dsum, ih]

theorem discountedReturns_cons_dsum {α : Type} [Field α] (γ : α) (r : α) (rs : List α) :
    discountedReturns γ (r :: rs) = dsum γ (r :: rs) :: discountedReturns γ rs := by
  rw [discountedReturns_cons, discountedReturns_headD]; rfl

theorem discountedReturns_length {α : Type} [Field α] (γ : α) (rs : List α) :
    (discountedReturns γ rs).length = rs.length := by
  induction rs with
  | nil => rfl
  | cons r t ih => simp [discountedReturns_cons, ih]

theorem discountedReturns_getD {α : Type} [Field α] (γ : α) :
    ∀ (rs : List α) (i : ℕ),
      (discountedReturns γ rs).getD i 0 = dsum γ (rs.drop i) := by
  intro rs
  induction rs with
  | nil => intro i; simp [discountedReturns_nil, dsum]
  | cons r t ih =>
      intro i
      cases i with
      | zero => simp [discountedReturns_cons_dsum]
      | succ j => simpa [discountedReturns_cons_dsum] using ih j

theorem dsum_eq_sum_range {α : Type} [Field α] (γ : α) :
    ∀ (l : List α),
      dsum γ l = ∑ k ∈ Finset.range l.length, γ ^ k * l.getD k 0 := by
  intro l
  induction l with
  | nil => simp [dsum]
  | cons r t ih =>
      rw [dsum, ih, List.length_cons, Finset.sum_range_succ']
      simp only [List.getD_cons_succ, List.getD_cons_zero, pow_zero, one_mul,
        pow_succ]
      rw [Finset.mul_sum, add_comm]
      congr 1
      refine Finset.sum_congr rfl fun k _ => by ring

theorem getD_drop_eq {α : Type} :
    ∀ (l : List α) (i k : ℕ) (d : α), (l.drop i).getD k d = l.getD (i + k) d := by
  intro l
  induction l with
  | nil => intro i k d; simp
  | cons a t ih =>
      intro i k d
      cases i with
      | zero => simp
      | succ j =>
          rw [List.drop_succ_cons, ih j k d]
          have : j + 1 + k = (j + k) + 1 := by omega
          rw [this, List.getD_cons_succ]

theorem lossFold_tensor {α : Type} [Field α] {β : Type} (f : β → α) :
    ∀ (l : List β) (v : α),
      l.foldl (fun acc x => LossVal.add acc (f x)) (LossVal.tensor v) =
        LossVal.tensor (v + (l.map f).sum) := by
  intro l
  induction l with
  | nil => intro v; simp
  | cons a t ih =>
      intro v
      rw [List.foldl_cons]
      show t.foldl _ (LossVal.tensor (v + f a)) = _
      rw [ih (v + f a), List.map_cons, List.sum_cons]
      congr 1
      ring

theorem lossFold_cons {α : Type} [Field α] {β : Type} (f : β → α) (a : β) (t : List β) :
    (a :: t).foldl (fun acc x => LossVal.add acc (f x)) LossVal.intZero =
      LossVal.tensor ((List.map f (a :: t)).sum) := by
  rw [List.foldl_cons]
  show t.foldl _ (LossVal.tensor (f a)) = _
  rw [lossFold_tensor f t (f a), List.map_cons, List.sum_cons]

theorem update_ok {α : Type} [Field α]
    (optStep : Policy_Network α → α → Policy_Network α) (s : REINFORCE α)
    (hp : s.probs ≠ []) (hr : s.rewards ≠ []) :
    REINFORCE.update optStep s =
      Except.ok
        ({ net := optStep s.net (episodeLoss s), probs := [], rewards := [] },
          episodeLoss s) := by
  obtain ⟨p, ps, hps⟩ := List.exists_cons_of_ne_nil hp
  obtain ⟨r, rs, hrs⟩ := List.exists_cons_of_ne_nil hr
  unfold REINFORCE.update episodeLoss
  rw [hps, hrs]
  simp only [discountedReturns_cons_dsum, List.zip_cons_cons, lossFold_cons]

theorem zip_map_singleton {α : Type} [Field α] :
    ∀ (ps gs : List α),
      ((ps.map (fun p => [p])).zip gs).map (fun pg => listMean pg.1 * pg.2 * (-1)) =
        (ps.zip gs).map (fun pg => pg.1 * pg.2 * (-1)) := by
  intro ps
  induction ps with
  | nil => intro gs; rfl
  | cons p pt ih =>
      intro gs
      cases gs with
      | nil => rfl
      | cons g gt =>
          simp only [List.map_cons, List.zip_cons_cons, ih gt]
          congr 1
          simp [listMean]

theorem map_mul_neg_sum {α : Type} [Field α] :
    ∀ (l : List (α × α)),
      (l.map (fun pg => pg.1 * pg.2 * (-1))).sum =
        -((l.map (fun pg => pg.1 * pg.2)).sum) := by
  intro l
  induction l with
  | nil => simp
  | cons a t ih =>
      simp only [List.map_cons, List.sum_cons, ih]
      ring

theorem update_scalar_probs {α : Type} [Field α]
    (f : Policy_Network α → α → Policy_Network α) (net : Policy_Network α)
    (ps rw : List α) (hp : ps ≠ []) (hr : rw ≠ []) :
    REINFORCE.update f { net := net, probs := ps.map (fun p => [p]), rewards := rw } =
      Except.ok
        ({ net := f net
              (-(((ps.zip (discountedReturns REINFORCE.gamma rw)).map
                  (fun pg => pg.1 * pg.2)).sum)),
           probs := [], rewards := [] },
          -(((ps.zip (discountedReturns REINFORCE.gamma rw)).map
              (fun pg => pg.1 * pg.2)).sum)) := by
  have hps : ps.map (fun p => [p]) ≠ [] := by
    intro h
    exact hp (List.map_eq_nil_iff.1 h)
  have hL : episodeLoss { net := net, probs := ps.map (fun p => [p]), rewards := rw } =
      -(((ps.zip (discountedReturns REINFORCE.gamma rw)).map
          (fun pg => pg.1 * pg.2)).sum) := by
    unfold episodeLoss
    rw [show ({ net := net, probs := ps.map (fun p => [p]), rewards := rw } :
        REINFORCE α).probs = ps.map (fun p => [p]) from rfl]
    rw [zip_map_singleton, map_mul_neg_sum]
  rw [update_ok f _ hps hr, hL]

theorem except_bind_ok {ε α β : Type} (a : α) (f : α → Except ε β) :
    (Except.ok a >>= f) = f a := rfl

theorem except_bind_error {ε α β : Type} (e : ε) (f : α → Except ε β) :
    ((Except.error e : Except ε α) >>= f) = Except.error e := rfl

theorem except_pure {ε α : Type} (a : α) :
    (pure a : Except ε α) = Except.ok a := rfl

theorem LinearLayer.run_ok (l : LinearLayer ℝ) (din dout : ℕ) (x : List ℝ)
    (hwf : l.WF din dout) (hx : x.length = din) :
    ∃ y, l.run x = Except.ok y ∧ y.length = dout := by
  unfold LinearLayer.run
  rw [if_pos (fun r hr => by rw [hwf.row_len r hr, hx])]
  exact ⟨_, rfl, by rw [List.length_zipWith, hwf.weight_len, hwf.bias_len, min_self]⟩

theorem LinearLayer.run_err (l : LinearLayer ℝ) (din dout : ℕ) (x : List ℝ)
    (hwf : l.WF din dout) (hdout : 0 < dout) (hx : x.length ≠ din) :
    l.run x = Except.error ForwardErr.invalidObservationShape := by
  unfold LinearLayer.run
  rw [if_neg]
  intro hall
  have hne : l.weight ≠ [] := by
    intro h
    have hlen := hwf.weight_len
    rw [h] at hlen
    simp at hlen
    omega
  obtain ⟨r, hr⟩ := List.exists_mem_of_ne_nil l.weight hne
  exact hx ((hall r hr).symm.trans (hwf.row_len r hr))

theorem Policy_Network.forward_ok (net : Policy_Network ℝ) (dObs dAct : ℕ)
    (x : List ℝ) (hwf : net.WF dObs dAct) (hx : x.length = dObs) :
    ∃ (ms : List ℝ × List ℝ) (raw : List ℝ),
      Policy_Network.forward net x = Except.ok ms ∧
      ms.1.length = dAct ∧ ms.2 = raw.map softplus ∧ raw.length = dAct := by
  obtain ⟨h1, hrun1, hlen1⟩ := LinearLayer.run_ok net.shared_net1 dObs 16 x hwf.wf1 hx
  obtain ⟨h2, hrun2, hlen2⟩ := LinearLayer.run_ok net.shared_net2 16 32
    (h1.map Real.tanh) hwf.wf2 (by rw [List.length_map, hlen1])
  obtain ⟨ams, hrunm, hlenm⟩ := LinearLayer.run_ok net.policy_mean_net 32 dAct
    (h2.map Real.tanh) hwf.wf_mean (by rw [List.length_map, hlen2])
  obtain ⟨raws, hruns, hlens⟩ := LinearLayer.run_ok net.policy_stddev_net 32 dAct
    (h2.map Real.tanh) hwf.wf_stddev (by rw [List.length_map, hlen2])
  refine ⟨(ams, raws.map softplus), raws, ?_, hlenm, rfl, hlens⟩
  simp only [Policy_Network.forward, hrun1, hrun2, hrunm, hruns, except_bind_ok,
    except_pure]

theorem forward_ok_inv (net : Policy_Network ℝ) (x : List ℝ) (ms : List ℝ × List ℝ)
    (h : Policy_Network.forward net x = Except.ok ms) :
    ∃ raw : List ℝ, ms.2 = raw.map softplus := by
  revert h
  unfold Policy_Network.forward
  cases net.shared_net1.run x with
  | error e => simp only [except_bind_error]; intro h; exact Except.noConfusion h
  | ok h1 =>
      simp only [except_bind_ok]
      cases net.shared_net2.run (h1.map Real.tanh) with
      | error e => simp only [except_bind_error]; intro h; exact Except.noConfusion h
      | ok h2 =>
          simp only [except_bind_ok]
          cases net.policy_mean_net.run (h2.map Real.tanh) with
          | error e => simp only [except_bind_error]; intro h; exact Except.noConfusion h
          | ok ams =>
              simp only [except_bind_ok]
              cases net.policy_stddev_net.run (h2.map Real.tanh) with
              | error e =>
                  simp only [except_bind_error]; intro h; exact Except.noConfusion h
              | ok raws =>
                  simp only [except_bind_ok, except_pure]
                  intro h
                  injection h with h'
                  exact ⟨raws, by rw [← h']⟩

theorem sample_action_ok (s : REINFORCE ℝ) (dObs dAct : ℕ) (state z : List ℝ)
    (hwf : s.net.WF dObs dAct) (hobs : state.length = dObs) (hz : z.length = dAct) :
    ∃ a s', REINFORCE.sample_action s state z = Except.ok (a, s') ∧
      a.length = dAct := by
  obtain ⟨ms, raw, hok, hm, hsp, hraw⟩ :=
    Policy_Network.forward_ok s.net dObs dAct state hwf hobs
  have hms2 : ms.2.length = dAct := by rw [hsp, List.length_map, hraw]
  unfold REINFORCE.sample_action
  rw [hok]
  simp only [except_bind_ok, except_pure]
  refine ⟨_, _, rfl, ?_⟩
  simp only [List.length_zipWith, List.length_zip, List.length_map, hm, hms2, hz,
    min_self]

theorem replicate_layer_wf (n m : ℕ) :
    (LinearLayer.mk (List.replicate n (List.replicate m (0 : ℝ)))
      (List.replicate n (0 : ℝ))).WF m n := by
  refine ⟨by simp, ?_, by simp⟩
  intro r hr
  rw [List.eq_of_mem_replicate hr]
  simp

theorem testNetR_wf : testNetR.WF 2 2 :=
  ⟨replicate_layer_wf 16 2, replicate_layer_wf 32 16,
    replicate_layer_wf 2 32, replicate_layer_wf 2 32⟩

theorem softplus_pos_aux (x : ℝ) : 0 < softplus x := by
  unfold softplus
  have h := Real.exp_pos x
  apply Real.log_pos
  linarith

theorem softplus_le_aux (x : ℝ) : softplus x ≤ max x 0 + Real.log 2 := by
  unfold softplus
  have e1 : Real.exp x ≤ Real.exp (max x 0) := Real.exp_le_exp.2 (le_max_left x 0)
  have e2 : (1 : ℝ) ≤ Real.exp (max x 0) := by
    rw [show (1 : ℝ) = Real.exp 0 from Real.exp_zero.symm]
    exact Real.exp_le_exp.2 (le_max_right x 0)
  have h1 : (1 : ℝ) + Real.exp x ≤ 2 * Real.exp (max x 0) := by linarith
  calc Real.log (1 + Real.exp x) ≤ Real.log (2 * Real.exp (max x 0)) := by
        apply Real.log_le_log (by positivity) h1
    _ = Real.log 2 + max x 0 := by
        rw [Real.log_mul (by norm_num) (Real.exp_ne_zero _), Real.log_exp]
    _ = max x 0 + Real.log 2 := add_comm _ _

theorem sample_action_frame_aux (s : REINFORCE ℝ) (state z a : List ℝ)
    (s' : REINFORCE ℝ)
    (h : REINFORCE.sample_action s state z = Except.ok (a, s')) :
    s'.rewards = s.rewards ∧ s'.net = s.net ∧
      ∃ p : List ℝ, s'.probs = s.probs ++ [p] := by
  revert h
  unfold REINFORCE.sample_action
  cases Policy_Network.forward s.net state with
  | error e => simp only [except_bind_error]; intro h; exact Except.noConfusion h
  | ok ms =>
      simp only [except_bind_ok, except_pure]
      intro h
      injection h with h'
      injection h' with ha hs
      rw [← hs]
      exact ⟨rfl, rfl, _, rfl⟩

/-- Claim C1: for every reward sequence and discount factor, the reverse
scan in `update` produces returns satisfying
G_t = sum over k from t to T of gamma^(k-t) * r_k (with no normalization
or baseline subtraction), and on rewards [1, 1, 1] with gamma = 0.99 it
yields [2.9701, 1.99, 1.0]. -/
theorem discountedReturns_correct :
    (∀ (γ : ℚ) (rw : List ℚ),
      (discountedReturns γ rw).length = rw.length ∧
      ∀ i : ℕ, i < rw.length →
        (discountedReturns γ rw).getD i 0 =
          ∑ k ∈ Finset.Ico i rw.length, γ ^ (k - i) * rw.getD k 0) ∧
    discountedReturns (REINFORCE.gamma : ℚ) [1, 1, 1] =
      [29701 / 10000, 199 / 100, 1] := by
  constructor
  · intro γ rw
    refine ⟨discountedReturns_length γ rw, ?_⟩
    intro i hi
    rw [discountedReturns_getD, dsum_eq_sum_range, Finset.sum_Ico_eq_sum_range,
      List.length_drop]
    refine Finset.sum_congr rfl ?_
    intro k _
    rw [getD_drop_eq]
    congr 1
    congr 1
    omega
  · rw [discountedReturns_cons_dsum, discountedReturns_cons_dsum,
      discountedReturns_cons_dsum, discountedReturns_nil]
    norm_num [dsum, REINFORCE.gamma]

/-- Witness for C1: the return at step 1 of the concrete reward sequence
[1, 2] with gamma = 1/2 satisfies the claimed closed form. -/
theorem discountedReturns_correct_witness :
    (0 : ℕ) < ([1, 2] : List ℚ).length ∧
    (discountedReturns (1 / 2 : ℚ) [1, 2]).getD 0 0 =
      ∑ k ∈ Finset.Ico 0 ([1, 2] : List ℚ).length,
        (1 / 2 : ℚ) ^ (k - 0) * ([1, 2] : List ℚ).getD k 0 :=
  ⟨by decide, (discountedReturns_correct.1 (1 / 2) [1, 2]).2 0 (by decide)⟩

theorem update_loop_empty {α : Type} [Field α]
    (f : Policy_Network α → α → Policy_Network α) (s : REINFORCE α)
    (h : s.probs.zip (discountedReturns REINFORCE.gamma s.rewards) = []) :
    REINFORCE.update f s = Except.error UpdateErr.attributeError := by
  simp only [REINFORCE.update]
  rw [h]
  rfl

theorem update_ok_of_zip_cons {α : Type} [Field α]
    (f : Policy_Network α → α → Policy_Network α) (s : REINFORCE α)
    (a : List α × α) (t : List (List α × α))
    (h : s.probs.zip (discountedReturns REINFORCE.gamma s.rewards) = a :: t) :
    REINFORCE.update f s =
      Except.ok
        ({ net := f s.net (episodeLoss s), probs := [], rewards := [] },
          episodeLoss s) := by
  simp only [REINFORCE.update, episodeLoss, h, lossFold_cons]

/-- Claim C2: for every buffer of scalar log-probs paired with rewards of
equal length, `update` forms the training loss as the negative sum over t
of p_t * G_t; on log-probs [-0.5, -0.3, -0.7] with rewards [0, 0, 10] and
gamma = 0.99 the loss equals 14.8705. -/
theorem update_loss_spec :
    (∀ (f : Policy_Network ℚ → ℚ → Policy_Network ℚ) (net : Policy_Network ℚ)
        (ps rw : List ℚ), ps ≠ [] → rw ≠ [] → ps.length = rw.length →
      REINFORCE.update f
          { net := net, probs := ps.map (fun p => [p]), rewards := rw } =
        Except.ok
          ({ net := f net
                (-(((ps.zip (discountedReturns REINFORCE.gamma rw)).map
                    (fun pg => pg.1 * pg.2)).sum)),
             probs := [], rewards := [] },
            -(((ps.zip (discountedReturns REINFORCE.gamma rw)).map
                (fun pg => pg.1 * pg.2)).sum))) ∧
    REINFORCE.update optStepQ
        { net := trivNetQ, probs := [[-1/2], [-3/10], [-7/10]],
          rewards := [0, 0, 10] } =
      Except.ok ({ net := trivNetQ, probs := [], rewards := [] },
        148705 / 10000) := by
  constructor
  · intro f net ps rw hp hr _
    exact update_scalar_probs f net ps rw hp hr
  · have hdr : discountedReturns (REINFORCE.gamma : ℚ) [0, 0, 10] =
        [9801 / 1000, 99 / 10, 10] := by
      rw [discountedReturns_cons_dsum, discountedReturns_cons_dsum,
        discountedReturns_cons_dsum, discountedReturns_nil]
      norm_num [dsum, REINFORCE.gamma]
    have h := update_scalar_probs optStepQ trivNetQ [-1/2, -3/10, -7/10] [0, 0, 10]
      (by simp) (by simp)
    rw [show ([[-1/2], [-3/10], [-7/10]] : List (List ℚ)) =
        ([-1/2, -3/10, -7/10] : List ℚ).map (fun p => [p]) from rfl, h, hdr]
    simp only [optStepQ, List.zip_cons_cons, List.zip_nil_left, List.map_cons,
      List.map_nil, List.sum_cons, List.sum_nil]
    norm_num

/-- Witness for C2: instantiation at the one-step buffers [2] and [3]. -/
theorem update_loss_spec_witness :
    ([2] : List ℚ) ≠ [] ∧ ([3] : List ℚ) ≠ [] ∧
    REINFORCE.update optStepQ
        { net := trivNetQ, probs := ([2] : List ℚ).map (fun p => [p]),
          rewards := [3] } =
      Except.ok
        ({ net := optStepQ trivNetQ
              (-(((([2] : List ℚ).zip
                  (discountedReturns REINFORCE.gamma [3])).map
                  (fun pg => pg.1 * pg.2)).sum)),
           probs := [], rewards := [] },
          -(((([2] : List ℚ).zip (discountedReturns REINFORCE.gamma [3])).map
              (fun pg => pg.1 * pg.2)).sum)) :=
  ⟨List.cons_ne_nil 2 [], List.cons_ne_nil 3 [],
    update_loss_spec.1 optStepQ trivNetQ [2] [3] (List.cons_ne_nil 2 [])
      (List.cons_ne_nil 3 []) rfl⟩

/-- Claim C3 counterexample: with both buffers empty, `update` neither
completes nor signals `EmptyTrajectoryError` — it fails with the attribute
error raised by calling `backward()` on the integer 0. -/
theorem update_empty_counterexample :
    REINFORCE.update optStepQ emptyAgentQ = Except.error UpdateErr.attributeError ∧
    UpdateErr.attributeError ≠ UpdateErr.emptyTrajectoryError :=
  ⟨rfl, by decide⟩

/-- Claim C3 amended: invoked on empty trajectory buffers, `update` always
fails with the attribute error from `loss.backward()` on the integer 0
(the accumulation loop runs zero times), which is neither a no-op nor an
`EmptyTrajectoryError`. -/
theorem update_empty_attributeError :
    ∀ (f : Policy_Network ℚ → ℚ → Policy_Network ℚ) (s : REINFORCE ℚ),
      s.probs = [] → s.rewards = [] →
      REINFORCE.update f s = Except.error UpdateErr.attributeError := by
  intro f s hp _
  exact update_loop_empty f s (by rw [hp]; rfl)

/-- Witness for the amended C3 at the concrete empty agent state. -/
theorem update_empty_attributeError_witness :
    emptyAgentQ.probs = [] ∧ emptyAgentQ.rewards = [] ∧
    REINFORCE.update optStepQ emptyAgentQ = Except.error UpdateErr.attributeError :=
  ⟨rfl, rfl, update_empty_attributeError optStepQ emptyAgentQ rfl rfl⟩

/-- Claim C4: every successful return of `update` leaves both trajectory
buffers empty, and on any non-empty pre-update trajectory `update` does
return successfully, so no trajectory data carries over between episodes. -/
theorem update_clears_buffers :
    (∀ (f : Policy_Network ℚ → ℚ → Policy_Network ℚ) (s : REINFORCE ℚ)
        (out : REINFORCE ℚ × ℚ), REINFORCE.update f s = Except.ok out →
      out.1.probs = [] ∧ out.1.rewards = []) ∧
    (∀ (f : Policy_Network ℚ → ℚ → Policy_Network ℚ) (s : REINFORCE ℚ),
      s.probs ≠ [] → s.rewards ≠ [] →
      ∃ out : REINFORCE ℚ × ℚ, REINFORCE.update f s = Except.ok out) := by
  constructor
  · intro f s out h
    cases hzip : s.probs.zip (discountedReturns REINFORCE.gamma s.rewards) with
    | nil =>
        rw [update_loop_empty f s hzip] at h
        exact Except.noConfusion h
    | cons a t =>
        rw [update_ok_of_zip_cons f s a t hzip] at h
        injection h with h'
        rw [← h']
        exact ⟨rfl, rfl⟩
  · intro f s hp hr
    exact ⟨_, update_ok f s hp hr⟩

/-- Witness for C4 at the concrete one-step trajectory ([[1]], [1]). -/
theorem update_clears_buffers_witness :
    ∃ out : REINFORCE ℚ × ℚ,
      REINFORCE.update optStepQ { net := trivNetQ, probs := [[1]], rewards := [1] } =
        Except.ok out ∧ out.1.probs = [] ∧ out.1.rewards = [] := by
  obtain ⟨out, h⟩ := update_clears_buffers.2 optStepQ
    { net := trivNetQ, probs := [[1]], rewards := [1] }
    (List.cons_ne_nil [1] []) (List.cons_ne_nil 1 [])
  exact ⟨out, h, update_clears_buffers.1 optStepQ _ out h⟩

/-- Claim C10: on unequal non-zero buffer lengths `update` signals no
error: the loss pairing truncates to the shorter of the two sequences
(the zip has length min(len probs, len rewards)), the optimizer step is
still applied with that truncated loss, and both buffers are cleared. -/
theorem update_mismatched_lengths :
    ∀ (f : Policy_Network ℚ → ℚ → Policy_Network ℚ) (net : Policy_Network ℚ)
      (ps rw : List ℚ), ps ≠ [] → rw ≠ [] → ps.length ≠ rw.length →
      (REINFORCE.update f
          { net := net, probs := ps.map (fun p => [p]), rewards := rw } =
        Except.ok
          ({ net := f net
                (-(((ps.zip (discountedReturns REINFORCE.gamma rw)).map
                    (fun pg => pg.1 * pg.2)).sum)),
             probs := [], rewards := [] },
            -(((ps.zip (discountedReturns REINFORCE.gamma rw)).map
                (fun pg => pg.1 * pg.2)).sum))) ∧
      (ps.zip (discountedReturns REINFORCE.gamma rw)).length =
        min ps.length rw.length := by
  intro f net ps rw hp hr _
  refine ⟨update_scalar_probs f net ps rw hp hr, ?_⟩
  rw [List.length_zip, discountedReturns_length]

/-- Witness for C10 at probs of length 2 and rewards of length 1. -/
theorem update_mismatched_lengths_witness :
    ([1, 1] : List ℚ) ≠ [] ∧ ([2] : List ℚ) ≠ [] ∧
    ([1, 1] : List ℚ).length ≠ ([2] : List ℚ).length ∧
    (REINFORCE.update optStepQ
        { net := trivNetQ, probs := ([1, 1] : List ℚ).map (fun p => [p]),
          rewards := [2] } =
      Except.ok
        ({ net := optStepQ trivNetQ
              (-(((([1, 1] : List ℚ).zip
                  (discountedReturns REINFORCE.gamma [2])).map
                  (fun pg => pg.1 * pg.2)).sum)),
           probs := [], rewards := [] },
          -(((([1, 1] : List ℚ).zip (discountedReturns REINFORCE.gamma [2])).map
              (fun pg => pg.1 * pg.2)).sum))) ∧
    (([1, 1] : List ℚ).zip (discountedReturns REINFORCE.gamma ([2] : List ℚ))).length =
      min ([1, 1] : List ℚ).length ([2] : List ℚ).length :=
  ⟨List.cons_ne_nil 1 [1], List.cons_ne_nil 2 [], by decide,
    update_mismatched_lengths optStepQ trivNetQ [1, 1] [2]
      (List.cons_ne_nil 1 [1]) (List.cons_ne_nil 2 []) (by decide)⟩

/-- Claim C5: the positivity transform log(1 + exp(x)) applied by
`Policy_Network.forward` is strictly positive and finite (bounded above by
max(x,0) + log 2) for every real raw scale pre-activation x, so every
scale entry `forward` returns is strictly positive. -/
theorem softplus_pos_spec :
    (∀ x : ℝ, 0 < softplus x ∧ softplus x ≤ max x 0 + Real.log 2) ∧
    (∀ (net : Policy_Network ℝ) (x : List ℝ) (ms : List ℝ × List ℝ),
      Policy_Network.forward net x = Except.ok ms → ∀ v ∈ ms.2, 0 < v) := by
  refine ⟨fun x => ⟨softplus_pos_aux x, softplus_le_aux x⟩, ?_⟩
  intro net x ms h v hv
  obtain ⟨raw, hraw⟩ := forward_ok_inv net x ms h
  rw [hraw] at hv
  obtain ⟨u, _, rfl⟩ := List.mem_map.1 hv
  exact softplus_pos_aux u

/-- Witness for C5: a concrete successful forward pass whose returned
scale vector is entrywise strictly positive. -/
theorem softplus_pos_spec_witness :
    ∃ ms : List ℝ × List ℝ,
      Policy_Network.forward testNetR [0, 0] = Except.ok ms ∧
      ∀ v ∈ ms.2, 0 < v := by
  obtain ⟨ms, raw, hok, h1, h2, h3⟩ :=
    Policy_Network.forward_ok testNetR 2 2 [0, 0] testNetR_wf rfl
  exact ⟨ms, hok, softplus_pos_spec.2 testNetR [0, 0] ms hok⟩

/-- Claim C7: for an agent whose network is configured with observation
dimensionality D_obs and action dimensionality D_act, `sample_action` on
an observation of dimension D_obs returns an action vector of exactly
D_act elements. -/
theorem sample_action_shape :
    ∀ (s : REINFORCE ℝ) (dObs dAct : ℕ) (state z : List ℝ),
      s.net.WF dObs dAct → state.length = dObs → z.length = dAct →
      ∃ (a : List ℝ) (s' : REINFORCE ℝ),
        REINFORCE.sample_action s state z = Except.ok (a, s') ∧
        a.length = dAct :=
  fun s dObs dAct state z hwf hobs hz =>
    sample_action_ok s dObs dAct state z hwf hobs hz

/-- Witness for C7 at the concrete (2, 2)-dimension agent. -/
theorem sample_action_shape_witness :
    testAgentR.net.WF 2 2 ∧
    ∃ (a : List ℝ) (s' : REINFORCE ℝ),
      REINFORCE.sample_action testAgentR [0, 0] [0, 0] = Except.ok (a, s') ∧
      a.length = 2 :=
  ⟨testNetR_wf,
    sample_action_shape testAgentR 2 2 [0, 0] [0, 0] testNetR_wf rfl rfl⟩

/-- Claim C8: every successful `sample_action` call appends exactly one
entry to the log-prob buffer and leaves the rewards buffer and the
network parameters unchanged (the hyperparameters are fixed constants of
the embedding and cannot change). -/
theorem sample_action_frame :
    ∀ (s : REINFORCE ℝ) (state z a : List ℝ) (s' : REINFORCE ℝ),
      REINFORCE.sample_action s state z = Except.ok (a, s') →
      s'.rewards = s.rewards ∧ s'.net = s.net ∧
        ∃ p : List ℝ, s'.probs = s.probs ++ [p] :=
  fun s state z a s' h => sample_action_frame_aux s state z a s' h

/-- Witness for C8: a concrete successful call satisfying the frame
conditions. -/
theorem sample_action_frame_witness :
    ∃ (a : List ℝ) (s' : REINFORCE ℝ),
      REINFORCE.sample_action testAgentR [0, 0] [0, 0] = Except.ok (a, s') ∧
      s'.rewards = testAgentR.rewards ∧ s'.net = testAgentR.net ∧
      ∃ p : List ℝ, s'.probs = testAgentR.probs ++ [p] := by
  obtain ⟨a, s', h, _⟩ :=
    sample_action_ok testAgentR 2 2 [0, 0] [0, 0] testNetR_wf rfl rfl
  exact ⟨a, s', h, sample_action_frame testAgentR [0, 0] [0, 0] a s' h⟩

/-- Claim C9: the approximator's forward pass raises the shape error
immediately when the observation's dimensionality differs from the
configured D_obs, and raises no such error when it matches. -/
theorem forward_shape_validation :
    ∀ (net : Policy_Network ℝ) (dObs dAct : ℕ) (x : List ℝ), net.WF dObs dAct →
      (x.length ≠ dObs →
        Policy_Network.forward net x =
          Except.error ForwardErr.invalidObservationShape) ∧
      (x.length = dObs →
        ∃ ms, Policy_Network.forward net x = Except.ok ms) := by
  intro net dObs dAct x hwf
  constructor
  · intro hne
    have h1 := LinearLayer.run_err net.shared_net1 dObs 16 x hwf.wf1
      (by norm_num) hne
    simp only [Policy_Network.forward, h1, except_bind_error]
  · intro heq
    obtain ⟨ms, raw, hok, _, _, _⟩ :=
      Policy_Network.forward_ok net dObs dAct x hwf heq
    exact ⟨ms, hok⟩

/-- Witness for C9: the concrete (2, 2) network rejects a 3-dimensional
observation with the shape error. -/
theorem forward_shape_validation_witness :
    testNetR.WF 2 2 ∧ ([0, 0, 0] : List ℝ).length ≠ 2 ∧
    Policy_Network.forward testNetR [0, 0, 0] =
      Except.error ForwardErr.invalidObservationShape :=
  ⟨testNetR_wf, by decide,
    (forward_shape_validation testNetR 2 2 [0, 0, 0] testNetR_wf).1 (by decide)⟩
